import Mathlib

/-!
Verification development for the repository `string-algorithms-kasai`
(single source file `generate_graphs.py`).

The script reads a benchmark CSV into a pandas DataFrame and derives, per
chart, a handful of numeric series (theoretical complexity curves, ratio
and growth-rate series, a row subset).  We shallowly embed the numeric
derivation logic: a DataFrame row becomes a `BenchmarkRow`, a DataFrame a
`List BenchmarkRow`, `numpy.log2` becomes `Real.logb 2`, and each series
computed inside a `plot_*` function becomes a Lean function of the table,
translated line by line from the source.  IEEE-754 rounding is out of
scope (the arithmetic is modelled over `ℝ`), but the non-finite values
produced by division by zero are modelled explicitly by the type `FVal`
where a claim depends on them; doc comments on every definition cite the
source lines it embeds.
-/

namespace KasaiGraphs

/-- Base-2 logarithm on the reals, modelling `numpy.log2` on positive
arguments (`np.log2` is only applied to positive values in the claims we
settle, except where `FVal` tracks degeneracies explicitly). -/
noncomputable def log2 (x : ℝ) : ℝ := Real.logb 2 x

/-- One row of `benchmark_results.csv` as consumed by `generate_graphs.py`:
columns `Size`, `SA(ms)`, `LCP(ms)`, `Total(ms)`, `Search(ns)`, `n*log(n)`
(see the column accesses throughout the source). -/
structure BenchmarkRow where
  size : ℕ
  saMs : ℝ
  lcpMs : ℝ
  totalMs : ℝ
  searchNs : ℝ
  nLogN : ℝ
deriving Inhabited

/-- The loaded DataFrame: an ordered sequence of rows. -/
abbrev BenchmarkTable := List BenchmarkRow

/-- The row `df.iloc[0]`.  The source raises on an empty frame; all
properties are stated for nonempty tables, where `headI` agrees with the
source. -/
def firstRow (t : BenchmarkTable) : BenchmarkRow := t.headI

/-- The row `df.iloc[-1]` (same remark as `firstRow`). -/
def lastRow (t : BenchmarkTable) : BenchmarkRow := t.getLastD default

/-- Source line 32, in `plot_overall_complexity`:
`theoretical = (df['n*log(n)'] / df['n*log(n)'].iloc[0]) * df['Total(ms)'].iloc[0]`. -/
noncomputable def theoretical (t : BenchmarkTable) : List ℝ :=
  t.map (fun r => r.nLogN / (firstRow t).nLogN * (firstRow t).totalMs)

/-- Source line 94, in `plot_logarithmic_scale`:
`y_n = x * df['Total(ms)'].iloc[0] / df['Size'].iloc[0]` where `x = df['Size'].values`. -/
noncomputable def y_n (t : BenchmarkTable) : List ℝ :=
  t.map (fun r => (r.size : ℝ) * (firstRow t).totalMs / ((firstRow t).size : ℝ))

/-- Source line 95, in `plot_logarithmic_scale`:
`y_nlogn = x * np.log2(x) * df['Total(ms)'].iloc[0] / (df['Size'].iloc[0] * np.log2(df['Size'].iloc[0]))`. -/
noncomputable def y_nlogn (t : BenchmarkTable) : List ℝ :=
  t.map (fun r =>
    (r.size : ℝ) * log2 (r.size : ℝ) * (firstRow t).totalMs /
      (((firstRow t).size : ℝ) * log2 (((firstRow t).size : ℝ))))

/-- Source line 117, in `plot_search_performance`:
`search_us = df['Search(ns)'] / 1000`. -/
noncomputable def search_us (t : BenchmarkTable) : List ℝ :=
  t.map (fun r => r.searchNs / 1000)

/-- Source line 123, in `plot_search_performance`:
`theoretical_logn = np.log2(df['Size']) * (search_us.iloc[-1] / np.log2(df['Size'].iloc[-1]))`. -/
noncomputable def theoretical_logn (t : BenchmarkTable) : List ℝ :=
  t.map (fun r =>
    log2 (r.size : ℝ) * ((lastRow t).searchNs / 1000 / log2 (((lastRow t).size : ℝ))))

/-- Source line 145, in `plot_growth_rates`:
`time_ratios = df['Total(ms)'].iloc[1:].values / df['Total(ms)'].iloc[:-1].values`,
an elementwise quotient of the tail of the column by its front. -/
noncomputable def time_ratios (t : BenchmarkTable) : List ℝ :=
  List.zipWith (fun a b => a.totalMs / b.totalMs) t.tail t

/-- Source lines 148-152, in `plot_growth_rates`: the loop
`for i in range(1, len(df)): ratio = (n2 * np.log2(n2)) / (n1 * np.log2(n1))`
with `n1 = df['Size'].iloc[i-1]`, `n2 = df['Size'].iloc[i]`, collected into
`theoretical_ratios`. -/
noncomputable def theoretical_ratios (t : BenchmarkTable) : List ℝ :=
  List.zipWith
    (fun a b => ((a.size : ℝ) * log2 (a.size : ℝ)) / ((b.size : ℝ) * log2 (b.size : ℝ)))
    t.tail t

/-- An IEEE-754 double as far as finiteness is concerned: a finite value
(its rounding ignored, carried as a real), `+inf`, `-inf`, or `nan`.  Used
to model the non-finite values numpy/pandas produce on division by zero,
which some claims depend on. -/
inductive FVal where
  | finite (x : ℝ)
  | inf
  | negInf
  | nan

/-- Division of two finite values with IEEE semantics at a zero
denominator (numpy emits a warning but produces `inf`, `-inf` or `nan`):
this is the refinement of `/` used where a claim mentions non-finite
results. -/
noncomputable def divF (a b : ℝ) : FVal :=
  if b = 0 then (if 0 < a then .inf else if a < 0 then .negInf else .nan)
  else .finite (a / b)

/-- True exactly on `nan` (used to model pandas `skipna`). -/
def FVal.isNan : FVal → Bool
  | .nan => true
  | _ => false

/-- IEEE addition restricted to the finiteness information `FVal` keeps. -/
noncomputable def FVal.add : FVal → FVal → FVal
  | .nan, _ => .nan
  | _, .nan => .nan
  | .inf, .negInf => .nan
  | .negInf, .inf => .nan
  | .inf, _ => .inf
  | _, .inf => .inf
  | .negInf, _ => .negInf
  | _, .negInf => .negInf
  | .finite a, .finite b => .finite (a + b)

/-- Left-to-right sum of a list of `FVal`, starting from `0.0`. -/
noncomputable def sumF (l : List FVal) : FVal :=
  l.foldl FVal.add (.finite 0)

/-- The pandas `Series.mean()` aggregation with its default `skipna=True`:
`nan` entries are dropped, the rest are summed and divided by their count;
the mean of no valid entries is `nan`.  An infinite entry makes the sum,
hence the mean, infinite. -/
noncomputable def meanF (l : List FVal) : FVal :=
  match (l.filter (fun v => !v.isNan)).length, sumF (l.filter (fun v => !v.isNan)) with
  | 0, _ => .nan
  | n + 1, .finite s => .finite (s / (n + 1 : ℕ))
  | _ + 1, .inf => .inf
  | _ + 1, .negInf => .negInf
  | _ + 1, .nan => .nan

/-- Source line 65, in `plot_sa_vs_lcp`: `ratio = df['SA(ms)'] / df['LCP(ms)']`,
an elementwise float division, with its possible non-finite results
tracked by `FVal`. -/
noncomputable def sa_lcp_ratios (t : BenchmarkTable) : List FVal :=
  t.map (fun r => divF r.saMs r.lcpMs)

/-- Source lines 67-68, in `plot_sa_vs_lcp`: `ratio.mean()`, the reference
constant drawn as a horizontal line and printed in the legend. -/
noncomputable def ratio_mean (t : BenchmarkTable) : FVal :=
  meanF (sa_lcp_ratios t)

/-- Source lines 148-152 again, with the division refined by `divF` so that
the value numpy produces when `n1 * log2(n1)` is exactly zero (`n1 = 1`)
is represented faithfully; away from that degeneracy it coincides with
`theoretical_ratios`. -/
noncomputable def theoretical_ratiosF (t : BenchmarkTable) : List FVal :=
  List.zipWith
    (fun a b => divF ((a.size : ℝ) * log2 (a.size : ℝ)) ((b.size : ℝ) * log2 (b.size : ℝ)))
    t.tail t

/-- Helper for `df.iloc[::k]`: keep an element when the countdown hits 0,
then restart the countdown at `k - 1`. -/
def everyKthAux {α : Type*} (k : ℕ) : List α → ℕ → List α
  | [], _ => []
  | x :: xs, 0 => x :: everyKthAux k xs (k - 1)
  | _ :: xs, c + 1 => everyKthAux k xs c

/-- Source line 179, in `plot_component_breakdown`: `step = max(1, len(df) // 10)`. -/
def step (t : BenchmarkTable) : ℕ := max 1 (t.length / 10)

/-- Source line 180, in `plot_component_breakdown`: `df_subset = df.iloc[::step]`,
every `step`-th row starting from row 0. -/
def df_subset (t : BenchmarkTable) : BenchmarkTable := everyKthAux (step t) t 0

/-- The IEEE comparison `v >= 1.0`: false on `nan` (all comparisons with
`nan` are false) and on `-inf`, true on `+inf`. -/
def FVal.ge1 : FVal → Prop
  | .finite x => 1 ≤ x
  | .inf => True
  | .negInf => False
  | .nan => False

/-- A parsed CSV as `pandas.read_csv` returns it: a header naming the
columns and the data rows as strings (typing of cells is irrelevant to the
claims settled here). -/
structure RawFrame where
  columns : List String
  rows : List (List String)
deriving DecidableEq

/-- The header columns `generate_graphs.py` accesses. -/
def requiredColumns : List String :=
  ["Size", "Total(ms)", "SA(ms)", "LCP(ms)", "Search(ns)", "n*log(n)"]

/-- Source lines 15-17: `load_data` is exactly `pd.read_csv(csv_path)` -
the parsed frame is returned as-is, with no validation of any kind. -/
def load_data (f : RawFrame) : RawFrame := f

/-- Pandas column access `df[c]`: the column's cells when `c` is in the
header, `none` (a raised `KeyError`) otherwise.  This is where a missing
column first surfaces in the source, inside the first chart builder. -/
def getCol (f : RawFrame) (c : String) : Option (List String) :=
  if c ∈ f.columns then
    some (f.rows.map (fun r => r.getD (f.columns.indexOf c) ""))
  else none

/-- Modelled from the spec (§4.1), for comparison with `load_data`: a
loader that fails with `MalformedTableError` when a required column is
absent and otherwise returns the table.  The repository contains no such
check; this definition follows the spec's words only. -/
def load_data_spec (f : RawFrame) : Except String RawFrame :=
  if requiredColumns.all (fun c => f.columns.contains c) then .ok f
  else .error "MalformedTableError"

/-- Source line 206: the fixed input location. -/
def csv_path : String := "/home/claude/suffix-array-project/docs/benchmark_results.csv"

/-- Source line 207: the fixed output directory. -/
def output_dir : String := "/home/claude/suffix-array-project/docs"

/-- Observable outcome of one run of `main`: the console messages, the
chart builders invoked, and the image files written. -/
structure RunResult where
  messages : List String
  plotsInvoked : List String
  artifacts : List String
deriving DecidableEq

/-- Source lines 204-229, `main`, at the interface level: if the CSV is
absent (line 210), print the two diagnostics of lines 211-212 and return
before loading or plotting anything; otherwise load the data and run the
six chart builders in order, each writing its fixed artifact (the
`plt.savefig` calls at lines 44, 77, 108, 135, 170, 200). -/
def mainModel (csvExists : Bool) : RunResult :=
  if csvExists then
    { messages := ["Loading benchmark data...", "Generating plots...",
        "All graphs generated successfully!",
        "Graphs saved to: " ++ output_dir ++ "/"],
      plotsInvoked := ["plot_overall_complexity", "plot_sa_vs_lcp",
        "plot_logarithmic_scale", "plot_search_performance",
        "plot_growth_rates", "plot_component_breakdown"],
      artifacts := [output_dir ++ "/overall_complexity.png",
        output_dir ++ "/sa_vs_lcp.png",
        output_dir ++ "/logarithmic_complexity.png",
        output_dir ++ "/search_performance.png",
        output_dir ++ "/growth_rates.png",
        output_dir ++ "/component_breakdown.png"] }
  else
    { messages := ["Error: Benchmark data not found at " ++ csv_path,
        "Please run PerformanceBenchmark.java first to generate data."],
      plotsInvoked := [], artifacts := [] }

/-! Concrete input tables used by counterexamples and witnesses. -/

/-- The two-row scenario table of spec §8: sizes 1000 and 2000, totals 1.5
and 3.2, search times 2000 and 2100 ns, n·log2(n) reference column. -/
noncomputable def scenarioTable : BenchmarkTable :=
  [⟨1000, 1.0, 0.5, 1.5, 2000, 1000 * log2 1000⟩,
   ⟨2000, 2.2, 1.0, 3.2, 2100, 2000 * log2 2000⟩]

/-- A valid one-row table whose single size is 1 (sizes are positive
integers, so this is a legal BenchmarkTable; rows are trusted as-is). -/
def singleRowTable : BenchmarkTable := [⟨1, 1.0, 0.5, 1.5, 2000, 2⟩]

/-- A one-row table with size 1000 and nonzero n·log(n) cell. -/
def anchorTable : BenchmarkTable := [⟨1000, 1.0, 0.5, 1.5, 2000, 5⟩]

/-- A table whose second row has sa = lcp = 0, making its SA/LCP ratio 0/0. -/
def zeroRatioTable : BenchmarkTable :=
  [⟨1000, 1, 1, 2, 1000, 5⟩, ⟨2000, 0, 0, 0, 2100, 11⟩]

/-- A one-row table with lcp = 0 and sa > 0, making its SA/LCP ratio +inf. -/
def infRatioTable : BenchmarkTable := [⟨1000, 1, 0, 2, 1000, 5⟩]

/-- A three-row table with strictly increasing sizes 1, 2, 4 (the first
pair exercises the size-1 degeneracy of the expected growth ratio). -/
def increasingTable : BenchmarkTable :=
  [⟨1, 1, 1, 1, 1, 1⟩, ⟨2, 1, 1, 2, 1, 2⟩, ⟨4, 1, 1, 4, 1, 8⟩]

/-! Helper lemmas shared by several claim theorems. -/

lemma getElem?_zipWith_eq {α β γ : Type*} (f : α → β → γ) :
    ∀ (l₁ : List α) (l₂ : List β) (i : ℕ),
      (List.zipWith f l₁ l₂)[i]? =
        match l₁[i]?, l₂[i]? with
        | some a, some b => some (f a b)
        | _, _ => none
  | [], l₂, i => by simp
  | a :: l₁, [], i => by cases h : (a :: l₁)[i]? <;> simp [h]
  | a :: l₁, b :: l₂, 0 => by simp
  | a :: l₁, b :: l₂, i + 1 => by
    simpa using getElem?_zipWith_eq f l₁ l₂ i

lemma length_everyKthAux {α : Type*} (k : ℕ) (hk : 1 ≤ k) :
    ∀ (l : List α) (c : ℕ), (everyKthAux k l c).length = (l.length + (k - 1) - c) / k
  | [], c => by
    simp only [everyKthAux, List.length_nil]
    exact (Nat.div_eq_of_lt (by omega)).symm
  | x :: xs, 0 => by
    have ih := length_everyKthAux k hk xs (k - 1)
    have h1 : xs.length + (k - 1) - (k - 1) = xs.length := by omega
    have h2 : (x :: xs).length + (k - 1) - 0 = xs.length + k := by simp; omega
    rw [everyKthAux, List.length_cons, ih, h1, h2, Nat.add_div_right _ (by omega)]
  | x :: xs, c + 1 => by
    have ih := length_everyKthAux k hk xs c
    have h1 : (x :: xs).length + (k - 1) - (c + 1) = xs.length + (k - 1) - c := by
      simp; omega
    rw [everyKthAux, ih, h1]

lemma head?_everyKthAux {α : Type*} (k : ℕ) (l : List α) :
    (everyKthAux k l 0).head? = l.head? := by
  cases l <;> simp [everyKthAux]

lemma chain'_zipWith_tail {α β : Type*} {R : α → α → Prop} (f : α → α → β) :
    ∀ (l : List α), List.Chain' R l → ∀ v ∈ List.zipWith f l.tail l,
      ∃ a b, a ∈ l ∧ b ∈ l ∧ R b a ∧ v = f a b
  | [] => by simp
  | [x] => by simp
  | x :: y :: rest => by
    intro hc v hv
    rw [List.chain'_cons] at hc
    simp only [List.tail_cons, List.zipWith_cons_cons, List.mem_cons] at hv
    rcases hv with hv | hv
    · exact ⟨y, x, by simp, by simp, hc.1, hv⟩
    · obtain ⟨a, b, ha, hb, hR, rfl⟩ :=
        chain'_zipWith_tail f (y :: rest) hc.2 v (by simpa using hv)
      exact ⟨a, b, List.mem_cons_of_mem x ha, List.mem_cons_of_mem x hb, hR, rfl⟩

lemma getLastD_map_of_ne_nil {α β : Type*} (f : α → β) (l : List α) (h : l ≠ [])
    (d : α) (e : β) : (l.map f).getLastD e = f (l.getLastD d) := by
  obtain ⟨y, hy⟩ := Option.isSome_iff_exists.mp (List.getLast?_isSome.mpr h)
  rw [List.getLastD_eq_getLast?, List.getLastD_eq_getLast?, List.getLast?_map, hy]
  simp

lemma one_le_log2_of_two_le {n : ℕ} (h : 2 ≤ n) : 1 ≤ log2 (n : ℝ) := by
  have h2 := Real.logb_le_logb_of_le (b := 2) (x := 2) (y := (n : ℝ)) (by norm_num)
    (by norm_num) (by exact_mod_cast h)
  rwa [Real.logb_self_eq_one (by norm_num)] at h2

lemma log2_1000_bounds : 9.96 < log2 1000 ∧ log2 1000 < 9.97 := by
  have e1 : Real.logb 2 ((2 : ℝ) ^ (996 : ℕ)) = 996 := by
    rw [Real.logb_pow, Real.logb_self_eq_one (by norm_num)]; norm_num
  have e2 : Real.logb 2 ((2 : ℝ) ^ (997 : ℕ)) = 997 := by
    rw [Real.logb_pow, Real.logb_self_eq_one (by norm_num)]; norm_num
  have e3 : Real.logb 2 ((1000 : ℝ) ^ (100 : ℕ)) = 100 * Real.logb 2 1000 :=
    Real.logb_pow 2 1000 100
  have h1 : ((2 : ℝ)) ^ (996 : ℕ) < 1000 ^ (100 : ℕ) := by
    exact_mod_cast (by norm_num : (2 : ℕ) ^ 996 < 1000 ^ 100)
  have h2 : ((1000 : ℝ)) ^ (100 : ℕ) < 2 ^ (997 : ℕ) := by
    exact_mod_cast (by norm_num : (1000 : ℕ) ^ 100 < 2 ^ 997)
  have l1 := Real.logb_lt_logb (b := 2) (by norm_num) (by positivity) h1
  have l2 := Real.logb_lt_logb (b := 2) (by norm_num) (by positivity) h2
  rw [e1, e3] at l1
  rw [e2, e3] at l2
  constructor <;> [skip; skip] <;> unfold log2 <;> linarith

/-! Claim theorems. -/

/-- C8 (confirmed): when the input table resource is absent, the driver
emits a diagnostic naming the expected location (`csv_path`) and the
upstream tool responsible for producing it (`PerformanceBenchmark.java`),
and terminates without invoking any deriver/renderer pair and without
writing any output artifact (source lines 210-213). -/
theorem c8_missing_input_behavior :
    mainModel false =
      ⟨["Error: Benchmark data not found at " ++ csv_path,
        "Please run PerformanceBenchmark.java first to generate data."], [], []⟩ :=
  rfl

/-- C7 counterexample: a frame lacking every required column but `Size` is
returned unchanged by `load_data` — the loader succeeds and cannot fail
with `MalformedTableError` — whereas the loader described by the spec
(`load_data_spec`) rejects it.  This refutes "the Loader ... fails with
MalformedTableError" as a statement about the code. -/
theorem c7_loader_counterexample :
    load_data ⟨["Size"], [["10"]]⟩ = ⟨["Size"], [["10"]]⟩ ∧
    load_data_spec ⟨["Size"], [["10"]]⟩ = .error "MalformedTableError" :=
  ⟨rfl, rfl⟩

/-- C7 amended: the loader performs no validation at all — not even column
presence — and returns the parsed frame as-is; a missing required column
surfaces only later, when a chart builder first accesses that column
(`getCol` returning `none`, pandas' `KeyError`). -/
theorem c7_loader_no_validation (f : RawFrame) :
    load_data f = f ∧ ∀ c : String, c ∉ f.columns → getCol f c = none := by
  refine ⟨rfl, fun c hc => ?_⟩
  simp [getCol, hc]

/-- C7 witness: the amended statement applied to a concrete frame missing
the `Total(ms)` column. -/
theorem c7_loader_no_validation_witness :
    load_data ⟨["Size"], [["10"]]⟩ = ⟨["Size"], [["10"]]⟩ ∧
    getCol ⟨["Size"], [["10"]]⟩ "Total(ms)" = none :=
  ⟨(c7_loader_no_validation ⟨["Size"], [["10"]]⟩).1,
   (c7_loader_no_validation ⟨["Size"], [["10"]]⟩).2 "Total(ms)" (by decide)⟩

/-- C6 counterexample: on a one-row table the component-breakdown subset
is NOT empty — the step is max(1, 1 // 10) = 1 and `df.iloc[::1]` is the
whole one-row frame — refuting "the component-breakdown subset is empty". -/
theorem c6_single_row_counterexample :
    (df_subset singleRowTable).length = 1 ∧ df_subset singleRowTable ≠ [] := by
  refine ⟨by decide, fun h => ?_⟩
  have := congrArg List.length h
  simp [df_subset, singleRowTable, everyKthAux, step] at this

/-- C6 amended: a one-row table yields empty growth-rate series (both the
actual and the expected one) and a component-breakdown subset equal to the
whole one-row table; all three derivations are total functions, so the
single-row case is handled without failure. -/
theorem c6_single_row_behavior (r : BenchmarkRow) :
    time_ratios [r] = [] ∧ theoretical_ratios [r] = [] ∧ df_subset [r] = [r] :=
  ⟨rfl, rfl, rfl⟩

/-- C5 counterexample: for a 20-row table the step is 2 and the
component-breakdown subset has 10 rows, not 20, refuting "the
component-breakdown subset of item 6 has length exactly N". -/
theorem c5_length_counterexample :
    (df_subset (List.replicate 20 (default : BenchmarkRow))).length = 10 ∧
    (List.replicate 20 (default : BenchmarkRow)).length = 20 := by
  constructor <;> decide

/-- C5 amended: the derived series of §4.2 items 1-4 all have length N,
the growth-rate series (item 5) have length N - 1, and the
component-breakdown subset (item 6) has length ⌈N / k⌉ for
k = max(1, N // 10) — which equals N only for N < 20. -/
theorem c5_series_lengths (t : BenchmarkTable) :
    (theoretical t).length = t.length ∧
    (sa_lcp_ratios t).length = t.length ∧
    (y_n t).length = t.length ∧
    (y_nlogn t).length = t.length ∧
    (search_us t).length = t.length ∧
    (theoretical_logn t).length = t.length ∧
    (time_ratios t).length = t.length - 1 ∧
    (theoretical_ratios t).length = t.length - 1 ∧
    (df_subset t).length = (t.length + step t - 1) / step t := by
  refine ⟨by simp [theoretical], by simp [sa_lcp_ratios], by simp [y_n], by simp [y_nlogn],
    by simp [search_us], by simp [theoretical_logn], ?_, ?_, ?_⟩
  · rw [time_ratios, List.length_zipWith, List.length_tail]
    omega
  · rw [theoretical_ratios, List.length_zipWith, List.length_tail]
    omega
  · have hk : 1 ≤ step t := le_max_left 1 _
    rw [df_subset, length_everyKthAux (step t) hk t 0]
    congr 1
    omega

/-- C10 (confirmed): for every nonempty table the component-breakdown
subset selected with step k = max(1, N // 10) contains the table's first
row, and its length is ⌈N / k⌉ — equal to N when N < 10, and between 10
and 19 inclusive when N ≥ 10. -/
theorem c10_subset_invariants (t : BenchmarkTable) (ht : t ≠ []) :
    (df_subset t).head? = t.head? ∧
    (df_subset t).length = (t.length + step t - 1) / step t ∧
    (t.length < 10 → (df_subset t).length = t.length) ∧
    (10 ≤ t.length → 10 ≤ (df_subset t).length ∧ (df_subset t).length ≤ 19) := by
  have hk : 1 ≤ step t := le_max_left 1 _
  have hlen : (df_subset t).length = (t.length + step t - 1) / step t := by
    rw [df_subset, length_everyKthAux (step t) hk t 0]
    congr 1
    omega
  refine ⟨head?_everyKthAux _ t, hlen, ?_, ?_⟩
  · intro h10
    have hs : step t = 1 := by
      rw [step, Nat.div_eq_of_lt h10]
      simp
    rw [hlen, hs]
    simp
  · intro h10
    have hdiv : 1 ≤ t.length / 10 := by omega
    have hs : step t = t.length / 10 := by
      rw [step]
      omega
    have hkpos : 0 < t.length / 10 := hdiv
    rw [hlen, hs]
    constructor
    · rw [Nat.le_div_iff_mul_le hkpos]
      omega
    · have hlt : (t.length + t.length / 10 - 1) / (t.length / 10) < 20 := by
        rw [Nat.div_lt_iff_lt_mul hkpos]
        omega
      exact Nat.lt_succ_iff.mp hlt

/-- C10 witness: the invariants at the concrete one-row table. -/
theorem c10_subset_invariants_witness :
    (df_subset anchorTable).head? = anchorTable.head? ∧
    (df_subset anchorTable).length =
      (anchorTable.length + step anchorTable - 1) / step anchorTable ∧
    (anchorTable.length < 10 → (df_subset anchorTable).length = anchorTable.length) ∧
    (10 ≤ anchorTable.length →
      10 ≤ (df_subset anchorTable).length ∧ (df_subset anchorTable).length ≤ 19) :=
  c10_subset_invariants anchorTable (by simp [anchorTable])

/-- C1 counterexample: on the valid one-row table whose size is 1 the
O(n log n) log-log reference curve (item 3) at index 0 is
(1·log2(1)·1.5) / (1·log2(1)) = 0/0 — NaN in the source's float
arithmetic, 0 under the real-number convention used here — and under
either convention it differs from the observed total time 1.5, so the
curve is NOT anchored at the first observed value on every nonempty
table. -/
theorem c1_anchor_counterexample :
    (y_nlogn singleRowTable).headI ≠ (firstRow singleRowTable).totalMs := by
  simp [y_nlogn, singleRowTable, firstRow, log2]
  norm_num

/-- C1 amended: for every nonempty table whose first n·log(n) cell is
nonzero (the data model makes it positive) and whose first size is at
least 2 (the spec itself flags size[0] ≤ 1 as degenerate for item 3), the
item-1 theoretical total-time curve and both item-3 log-log reference
curves have value at index 0 exactly equal to the observed total time at
index 0, and the item-1 series is the n·log(n) column scaled elementwise
by total_time[0] / n_log_n[0]. -/
theorem c1_anchor_first_point (t : BenchmarkTable) (ht : t ≠ [])
    (hn : (firstRow t).nLogN ≠ 0) (hs : 2 ≤ (firstRow t).size) :
    (theoretical t).headI = (firstRow t).totalMs ∧
    (y_n t).headI = (firstRow t).totalMs ∧
    (y_nlogn t).headI = (firstRow t).totalMs ∧
    theoretical t = t.map (fun r => r.nLogN * ((firstRow t).totalMs / (firstRow t).nLogN)) := by
  obtain ⟨x, xs, rfl⟩ := List.exists_cons_of_ne_nil ht
  rw [firstRow, List.headI] at hn hs ⊢
  have hs0 : ((x.size : ℝ)) ≠ 0 := by
    have : (2 : ℝ) ≤ (x.size : ℝ) := by exact_mod_cast hs
    linarith
  have hL : (1 : ℝ) ≤ log2 (x.size : ℝ) := one_le_log2_of_two_le hs
  have hsL : ((x.size : ℝ)) * log2 (x.size : ℝ) ≠ 0 := by
    have h0 : (0 : ℝ) < (x.size : ℝ) := by
      have : (2 : ℝ) ≤ (x.size : ℝ) := by exact_mod_cast hs
      linarith
    positivity
  refine ⟨?_, ?_, ?_, ?_⟩
  · simp only [theoretical, firstRow, List.map_cons, List.headI]
    rw [div_self hn, one_mul]
  · simp only [y_n, firstRow, List.map_cons, List.headI]
    exact mul_div_cancel_left₀ x.totalMs hs0
  · simp only [y_nlogn, firstRow, List.map_cons, List.headI]
    exact mul_div_cancel_left₀ x.totalMs hsL
  · simp only [theoretical, firstRow, List.headI]
    exact List.map_congr_left (fun r _ => by ring)

/-- C1 witness: the amended anchoring at the concrete one-row table with
size 1000 and n·log(n) cell 5. -/
theorem c1_anchor_first_point_witness :
    (firstRow anchorTable).nLogN ≠ 0 ∧ 2 ≤ (firstRow anchorTable).size ∧
    (theoretical anchorTable).headI = (firstRow anchorTable).totalMs ∧
    (y_n anchorTable).headI = (firstRow anchorTable).totalMs ∧
    (y_nlogn anchorTable).headI = (firstRow anchorTable).totalMs ∧
    theoretical anchorTable =
      anchorTable.map
        (fun r => r.nLogN * ((firstRow anchorTable).totalMs / (firstRow anchorTable).nLogN)) := by
  have h1 : (firstRow anchorTable).nLogN ≠ 0 := by norm_num [firstRow, anchorTable]
  have h2 : 2 ≤ (firstRow anchorTable).size := by norm_num [firstRow, anchorTable]
  obtain ⟨a, b, c, d⟩ := c1_anchor_first_point anchorTable (by simp [anchorTable]) h1 h2
  exact ⟨h1, h2, a, b, c, d⟩

/-- C2 counterexample: on the valid one-row table whose size is 1, the
theoretical search-time curve at the last index is log2(1)·(2.0 / log2(1))
= 0·(2.0/0) — NaN in the source's float arithmetic, 0 under the real
convention used here — which under either convention differs from the
unit-converted observed search time 2.0 at the last index. -/
theorem c2_anchor_counterexample :
    (theoretical_logn singleRowTable).getLastD 0 ≠
      (lastRow singleRowTable).searchNs / 1000 := by
  simp [theoretical_logn, singleRowTable, lastRow, log2]
  norm_num

/-- C2 amended: for every nonempty table whose last size is at least 2
(so log2(size[last]) ≠ 0), the theoretical search-time curve equals
log2(size[i]) · (search_time[last]/1000) / log2(size[last]) at each index
i — search times converted from ns to µs by dividing by 1000 — and its
value at the last index exactly equals the unit-converted observed search
time at the last index. -/
theorem c2_search_anchor_last (t : BenchmarkTable) (ht : t ≠ [])
    (hs : 2 ≤ (lastRow t).size) :
    (∀ i, i < t.length →
      (theoretical_logn t)[i]? =
        some (log2 ((t.getD i default).size : ℝ) * ((lastRow t).searchNs / 1000) /
          log2 ((lastRow t).size : ℝ))) ∧
    (theoretical_logn t).getLastD 0 = (lastRow t).searchNs / 1000 := by
  constructor
  · intro i hi
    rw [theoretical_logn, List.getElem?_map, List.getElem?_eq_getElem hi]
    simp only [Option.map_some']
    congr 1
    rw [List.getD_eq_getElem t default hi]
    rw [mul_div_assoc]
  · rw [theoretical_logn, getLastD_map_of_ne_nil _ t ht default]
    have hL : log2 ((lastRow t).size : ℝ) ≠ 0 := by
      have := one_le_log2_of_two_le hs
      linarith
    simp only [lastRow] at hL ⊢
    rw [mul_comm, div_mul_cancel₀ _ hL]

/-- C2 witness: the amended statement at the concrete one-row table with
size 1000. -/
theorem c2_search_anchor_last_witness :
    2 ≤ (lastRow anchorTable).size ∧
    (theoretical_logn anchorTable).getLastD 0 = (lastRow anchorTable).searchNs / 1000 := by
  have h2 : 2 ≤ (lastRow anchorTable).size := by norm_num [lastRow, anchorTable]
  exact ⟨h2, (c2_search_anchor_last anchorTable (by simp [anchorTable]) h2).2⟩

lemma getElem?_eq_some_getD {α : Type*} [Inhabited α] (l : List α) (i : ℕ)
    (h : i < l.length) : l[i]? = some (l.getD i default) := by
  rw [List.getElem?_eq_getElem h, List.getD_eq_getElem l default h]

lemma zipWith_tail_getElem? {α β : Type*} [Inhabited α] (f : α → α → β)
    (t : List α) (i : ℕ) (h1 : 1 ≤ i) (h2 : i < t.length) :
    (List.zipWith f t.tail t)[i - 1]? = some (f (t.getD i default) (t.getD (i - 1) default)) := by
  rw [getElem?_zipWith_eq, List.getElem?_tail]
  have hi : i - 1 + 1 = i := by omega
  rw [hi, getElem?_eq_some_getD t i h2, getElem?_eq_some_getD t (i - 1) (by omega)]

/-- C3 (confirmed): the growth-rate series are aligned to rows 1..N-1 and
satisfy, for each adjacent pair (i-1, i), actual_ratio = total[i]/total[i-1]
and expected_ratio = (size[i]·log2(size[i])) / (size[i-1]·log2(size[i-1]));
on the concrete two-row scenario table of spec §8 the actual ratio is
3.2/1.5 ≈ 2.133 and the expected ratio ≈ 2.201 (within 0.001 each). -/
theorem c3_growth_rate_series :
    (∀ (t : BenchmarkTable) (i : ℕ), 1 ≤ i → i < t.length →
      (time_ratios t)[i - 1]? =
        some ((t.getD i default).totalMs / (t.getD (i - 1) default).totalMs) ∧
      (theoretical_ratios t)[i - 1]? =
        some ((((t.getD i default).size : ℝ) * log2 ((t.getD i default).size : ℝ)) /
          (((t.getD (i - 1) default).size : ℝ) * log2 ((t.getD (i - 1) default).size : ℝ)))) ∧
    |(time_ratios scenarioTable).headI - 2.133| < 0.001 ∧
    |(theoretical_ratios scenarioTable).headI - 2.201| < 0.001 := by
  refine ⟨fun t i h1 h2 => ⟨?_, ?_⟩, ?_, ?_⟩
  · rw [time_ratios, zipWith_tail_getElem? _ t i h1 h2]
  · rw [theoretical_ratios, zipWith_tail_getElem? _ t i h1 h2]
  · simp only [time_ratios, scenarioTable, List.tail_cons, List.zipWith_cons_cons,
      List.zipWith_nil_left, List.headI]
    rw [abs_sub_lt_iff]
    constructor <;> norm_num
  · simp only [theoretical_ratios, scenarioTable, List.tail_cons, List.zipWith_cons_cons,
      List.zipWith_nil_left, List.headI]
    have hb := log2_1000_bounds
    have hL0 : (0 : ℝ) < log2 1000 := by linarith [hb.1]
    have h2000 : log2 2000 = 1 + log2 1000 := by
      rw [log2, log2, show (2000 : ℝ) = 2 * 1000 by norm_num,
        Real.logb_mul (by norm_num) (by norm_num), Real.logb_self_eq_one (by norm_num)]
    have hcast : ((2000 : ℕ) : ℝ) = (2000 : ℝ) := by norm_num
    have hcast1 : ((1000 : ℕ) : ℝ) = (1000 : ℝ) := by norm_num
    rw [hcast, hcast1, h2000]
    have hval : (2000 : ℝ) * (1 + log2 1000) / (1000 * log2 1000) = 2 + 2 / log2 1000 := by
      field_simp
      ring
    rw [hval]
    have hu : 2 / log2 1000 < 2 / 9.96 := div_lt_div_of_pos_left (by norm_num) (by norm_num) hb.1
    have hl : 2 / 9.97 < 2 / log2 1000 := div_lt_div_of_pos_left (by norm_num) hL0 hb.2
    have hu2 : (2 : ℝ) / 9.96 < 0.2009 := by norm_num
    have hl2 : (0.2006 : ℝ) < 2 / 9.97 := by norm_num
    rw [abs_sub_lt_iff]
    constructor <;> linarith

/-- C3 witness: the per-pair formulas applied at the scenario table, i = 1. -/
theorem c3_growth_rate_series_witness :
    (time_ratios scenarioTable)[0]? =
      some ((scenarioTable.getD 1 default).totalMs / (scenarioTable.getD 0 default).totalMs) :=
  (c3_growth_rate_series.1 scenarioTable 1 (by norm_num) (by simp [scenarioTable])).1

lemma foldl_add_eq_inf :
    ∀ (l : List FVal) (acc : FVal),
      (∀ v ∈ l, v = .inf ∨ ∃ x, v = .finite x) →
      (acc = .inf ∨ ∃ x, acc = .finite x) →
      (FVal.inf ∈ l ∨ acc = .inf) →
      l.foldl FVal.add acc = .inf
  | [], acc => by
    intro _ _ hin
    rcases hin with hin | rfl
    · simp at hin
    · simp
  | v :: l, acc => by
    intro hmem hacc hin
    rw [List.foldl_cons]
    have hv := hmem v (List.mem_cons_self v l)
    apply foldl_add_eq_inf l (FVal.add acc v)
      (fun w hw => hmem w (List.mem_cons_of_mem v hw))
    · rcases hacc with rfl | ⟨x, rfl⟩ <;> rcases hv with rfl | ⟨y, rfl⟩ <;>
        simp [FVal.add]
    · rcases hacc with rfl | ⟨x, rfl⟩
      · right
        rcases hv with rfl | ⟨y, rfl⟩ <;> simp [FVal.add]
      · rcases hv with rfl | ⟨y, rfl⟩
        · right
          simp [FVal.add]
        · left
          rcases hin with hin | hacc'
          · rcases List.mem_cons.mp hin with h | h
            · exact absurd h (by simp)
            · exact h
          · exact absurd hacc' (by simp)

lemma meanF_eq_inf (l : List FVal)
    (hall : ∀ v ∈ l, v = .inf ∨ (∃ x, v = .finite x) ∨ v = .nan)
    (hinf : FVal.inf ∈ l) : meanF l = .inf := by
  have hxmem : FVal.inf ∈ l.filter (fun v => !FVal.isNan v) :=
    List.mem_filter.mpr ⟨hinf, by simp [FVal.isNan]⟩
  have hsum : sumF (l.filter (fun v => !FVal.isNan v)) = .inf := by
    apply foldl_add_eq_inf _ _ ?_ (Or.inr ⟨0, rfl⟩) (Or.inl hxmem)
    intro v hv
    obtain ⟨hvl, hnn⟩ := List.mem_filter.mp hv
    rcases hall v hvl with h | h | rfl
    · exact Or.inl h
    · exact Or.inr h
    · simp [FVal.isNan] at hnn
  obtain ⟨n, hn⟩ : ∃ n, (l.filter (fun v => !FVal.isNan v)).length = n + 1 := by
    cases h : (l.filter (fun v => !FVal.isNan v)).length with
    | zero =>
      rw [List.length_eq_zero] at h
      rw [h] at hxmem
      simp at hxmem
    | succ n => exact ⟨n, rfl⟩
  unfold meanF
  rw [hn, hsum]

/-- C4 counterexample: on the table whose second row has sa = lcp = 0, the
SA/LCP ratio series is [1.0, NaN]; the mean reference constant pandas
computes skips the NaN (`skipna` default) and equals 1.0 — a finite value
although a ratio value is non-finite — refuting "the reported reference
constant ... becomes non-finite (and is not silently clamped or excluded)
when any ratio value is non-finite". -/
theorem c4_mean_counterexample :
    sa_lcp_ratios zeroRatioTable = [.finite 1, .nan] ∧
    ratio_mean zeroRatioTable = .finite 1 := by
  have h1 : divF (1 : ℝ) 1 = .finite 1 := by
    rw [divF, if_neg (by norm_num)]
    norm_num
  have h0 : divF (0 : ℝ) 0 = .nan := by
    rw [divF, if_pos rfl, if_neg (by norm_num), if_neg (by norm_num)]
  have hser : sa_lcp_ratios zeroRatioTable = [.finite 1, .nan] := by
    simp only [sa_lcp_ratios, zeroRatioTable, List.map_cons, List.map_nil]
    rw [h1, h0]
  refine ⟨hser, ?_⟩
  rw [ratio_mean, hser]
  have hfil : ([FVal.finite 1, FVal.nan].filter (fun v => !FVal.isNan v)) = [.finite 1] := by
    simp [List.filter, FVal.isNan]
  unfold meanF
  rw [hfil]
  have hsum : sumF [FVal.finite 1] = .finite 1 := by
    simp [sumF, FVal.add]
  rw [show ([FVal.finite 1] : List FVal).length = 0 + 1 from rfl, hsum]
  norm_num

/-- C4 amended: the SA/LCP ratio series is the elementwise IEEE quotient
sa_time/lcp_time with non-finite values propagated, and a row with
lcp = 0 and sa > 0 yields +inf at its index; when any ratio value is +inf
the mean reference constant is +inf as well.  A NaN ratio (sa = lcp = 0),
however, is silently dropped from the mean by the aggregation's skipna
default rather than propagated. -/
theorem c4_ratio_propagation (t : BenchmarkTable) (hsa : ∀ r ∈ t, 0 ≤ r.saMs) :
    sa_lcp_ratios t = t.map (fun r => divF r.saMs r.lcpMs) ∧
    (∀ r ∈ t, r.lcpMs = 0 → 0 < r.saMs → divF r.saMs r.lcpMs = .inf) ∧
    (FVal.inf ∈ sa_lcp_ratios t → ratio_mean t = .inf) := by
  refine ⟨rfl, ?_, ?_⟩
  · intro r _ h0 hpos
    rw [divF, if_pos h0, if_pos hpos]
  · intro hinf
    apply meanF_eq_inf
    · intro v hv
      obtain ⟨r, hr, rfl⟩ := List.mem_map.mp hv
      by_cases hl : r.lcpMs = 0
      · rcases lt_or_eq_of_le (hsa r hr) with hpos | hz
        · left
          rw [divF, if_pos hl, if_pos hpos]
        · right; right
          rw [divF, if_pos hl, if_neg (by rw [← hz]; norm_num), if_neg (by rw [← hz]; norm_num)]
      · right; left
        exact ⟨_, by rw [divF, if_neg hl]⟩
    · exact hinf

/-- C4 witness: the amended statement at the one-row table with sa = 1,
lcp = 0, whose single ratio is +inf, forcing an infinite mean. -/
theorem c4_ratio_propagation_witness : ratio_mean infRatioTable = .inf := by
  have hone : divF (1 : ℝ) 0 = .inf := by
    rw [divF, if_pos rfl, if_pos (by norm_num)]
  apply (c4_ratio_propagation infRatioTable ?_).2.2
  · rw [show sa_lcp_ratios infRatioTable = [divF (1 : ℝ) 0] from rfl, hone]
    simp
  · intro r hr
    simp only [infRatioTable, List.mem_singleton] at hr
    rw [hr]
    norm_num

/-- C9 (confirmed): for every table with more than one row, positive sizes
(the data model), and strictly increasing size column, every element of
the expected growth-rate series satisfies `>= 1` under IEEE comparison
semantics: a pair with previous size ≥ 2 yields a finite ratio ≥ 1 by
monotonicity of n·log2(n), and the degenerate first pair with previous
size 1 yields +inf (division of a positive value by exactly 0.0), for
which the comparison also holds. -/
theorem c9_expected_ratio_ge_one (t : BenchmarkTable) (hlen : 2 ≤ t.length)
    (hpos : ∀ r ∈ t, 1 ≤ r.size)
    (hinc : List.Chain' (fun a b => a.size < b.size) t) :
    ∀ v ∈ theoretical_ratiosF t, FVal.ge1 v := by
  intro v hv
  obtain ⟨a, b, ha, hb, hR, rfl⟩ := chain'_zipWith_tail _ t hinc v hv
  have hb1 : 1 ≤ b.size := hpos b hb
  have ha2 : 2 ≤ a.size := by omega
  have haL : (1 : ℝ) ≤ log2 (a.size : ℝ) := one_le_log2_of_two_le ha2
  have haPos : (0 : ℝ) < (a.size : ℝ) := by
    have : (2 : ℝ) ≤ (a.size : ℝ) := by exact_mod_cast ha2
    linarith
  have hnum : (0 : ℝ) < (a.size : ℝ) * log2 (a.size : ℝ) := by positivity
  rcases eq_or_lt_of_le hb1 with hbeq | hblt
  · have hden : ((b.size : ℝ)) * log2 (b.size : ℝ) = 0 := by
      rw [← hbeq]
      simp [log2]
    rw [divF, if_pos hden, if_pos hnum]
    trivial
  · have hb2 : 2 ≤ b.size := hblt
    have hbL : (1 : ℝ) ≤ log2 (b.size : ℝ) := one_le_log2_of_two_le hb2
    have hbPos : (0 : ℝ) < (b.size : ℝ) := by
      have : (2 : ℝ) ≤ (b.size : ℝ) := by exact_mod_cast hb2
      linarith
    have hden : (0 : ℝ) < (b.size : ℝ) * log2 (b.size : ℝ) := by positivity
    rw [divF, if_neg (ne_of_gt hden)]
    show (1 : ℝ) ≤ _ / _
    rw [one_le_div hden]
    have hab : ((b.size : ℝ)) ≤ (a.size : ℝ) := by exact_mod_cast le_of_lt hR
    have hLL : log2 (b.size : ℝ) ≤ log2 (a.size : ℝ) := by
      rw [log2, log2]
      exact Real.logb_le_logb_of_le (by norm_num) hbPos hab
    exact mul_le_mul hab hLL (by linarith) (le_of_lt haPos)

/-- C9 witness: the property at the concrete table with sizes 1, 2, 4,
whose first expected ratio exercises the division-by-zero case. -/
theorem c9_expected_ratio_ge_one_witness :
    2 ≤ increasingTable.length ∧ ∀ v ∈ theoretical_ratiosF increasingTable, FVal.ge1 v := by
  refine ⟨by simp [increasingTable], c9_expected_ratio_ge_one increasingTable
    (by simp [increasingTable]) ?_ ?_⟩
  · intro r hr
    simp only [increasingTable, List.mem_cons, List.not_mem_nil, or_false] at hr
    rcases hr with rfl | rfl | rfl <;> norm_num
  · simp only [increasingTable, List.chain'_cons, List.chain'_singleton, and_true]
    norm_num

end KasaiGraphs
